import Mathlib

/-
Verification development for the sql_query_optimizer_cpp repository.

The definitions below are a shallow embedding of the C++ sources under
src/engine.  Predicates are opaque strings, exactly as in the source
(src/engine/include/ast.h keeps them as std::string and the rewriter only
does substring and regex recognition on them).  C++ std::string find is
modelled by a substring scan over the character list; std::set and
std::map are modelled by sorted respectively association lists; the two
std::regex patterns used by the rewriter are modelled by direct scanners
(for both patterns greedy matching without backtracking is equivalent to
ECMAScript semantics, because every repeated class in them is followed by
a character that the class cannot match).  double fields that the settled
claims depend on (column selectivities and histogram frequencies) are
modelled as rationals: estimateSelectivity only returns stored values or
literal constants and performs no floating-point arithmetic, so the
branch taken and the value returned are representation independent.
Cost fields (estimated_cost) are omitted from the plan model: they are
double valued and no claim below depends on them; cardinalities are
size_t in the source and are modelled as Nat.
-/

namespace SqlOpt

/-! Character and string utilities mirroring std::string operations. -/

/-- Test whether the second list is a prefix of the first list of characters. -/
def pfxAt : List Char → List Char → Bool
  | _, [] => true
  | [], _ :: _ => false
  | b :: bs, a :: as => a == b && pfxAt bs as

/-- Model of std::string::find(pat) != npos: does the haystack contain pat. -/
def listContainsSub : List Char → List Char → Bool
  | [], needle => needle.isEmpty
  | c :: rest, needle => pfxAt (c :: rest) needle || listContainsSub rest needle

/-- Model of s.find(pat) != std::string::npos on C++ strings. -/
def strContains (s pat : String) : Bool :=
  listContainsSub s.data pat.data

/-- Model of std::tolower applied per character (ASCII, as in the C locale). -/
def toLowerStr (s : String) : String :=
  String.mk (s.data.map Char.toLower)

/-- ECMAScript word character class: letters, digits, underscore. -/
def isWordChar (c : Char) : Bool :=
  c.isAlphanum || c == '_'

/-- ECMAScript whitespace class, ASCII part. -/
def isSpaceChar (c : Char) : Bool :=
  c == ' ' || c == '\t' || c == '\n' || c == '\r' || c == '\x0b' || c == '\x0c'

/-- Identifier characters as used by semantic.cpp word expansion: isalnum or underscore. -/
def isIdentChar (c : Char) : Bool :=
  c.isAlphanum || c == '_'

/-- Lexicographic strict comparison of character lists, the order of
std::string operator less-than (byte order and code-point order agree on
UTF-8 text). -/
def charListLt : List Char → List Char → Bool
  | _, [] => false
  | [], _ :: _ => true
  | a :: as, b :: bs =>
    if a.toNat < b.toNat then true
    else if b.toNat < a.toNat then false
    else charListLt as bs

/-- Maximal word-character run at the head of a character list, with the rest. -/
def spanWord (cs : List Char) : List Char × List Char :=
  (cs.takeWhile isWordChar, cs.dropWhile isWordChar)

/-- Drop leading whitespace characters. -/
def dropSpaces (cs : List Char) : List Char :=
  cs.dropWhile isSpaceChar

/-- Require at least one whitespace character, then drop the whole run. -/
def spaces1 : List Char → Option (List Char)
  | [] => none
  | c :: rest => if isSpaceChar c then some (dropSpaces rest) else none

/-- Match a literal character sequence, returning the rest on success. -/
def litMatch : List Char → List Char → Option (List Char)
  | [], cs => some cs
  | _ :: _, [] => none
  | l :: ls, c :: cs => if l == c then litMatch ls cs else none

/-- Require a nonempty word-character run, returning it with the rest. -/
def word1 (cs : List Char) : Option (List Char × List Char) :=
  let (w, r) := spanWord cs
  if w.isEmpty then none else some (w, r)

/-! The AST of src/engine/include/ast.h, restricted to SELECT queries.
The subqueries field of the C++ SelectQuery holds raw pointers and is
only read by flattenSubqueries, which no embedded function calls; it is
omitted. -/

/-- Join types of ast.h. -/
inductive JoinType where
  | INNER | LEFT | RIGHT | FULL | NATURAL | LEFT_ANTI | RIGHT_ANTI | FULL_OUTER_ANTI
deriving DecidableEq, Repr, Fintype

/-- TableRef of ast.h. -/
structure TableRef where
  name : String
  alias_ : String
  pushedFilters : List String
deriving DecidableEq, Repr

/-- JoinClause of ast.h. -/
structure JoinClause where
  type : JoinType
  table : TableRef
  on_conds : List String
deriving DecidableEq, Repr

/-- OrderItem of ast.h. -/
structure OrderItem where
  expr : String
  asc : Bool
deriving DecidableEq, Repr

/-- SelectItem of ast.h. -/
structure SelectItem where
  expr : String
  alias_ : String
deriving DecidableEq, Repr

/-- SelectQuery of ast.h. -/
structure SelectQuery where
  distinct : Bool
  select_items : List SelectItem
  from_table : TableRef
  joins : List JoinClause
  where_conditions : List String
  group_by : List String
  having_conditions : List String
  order_by : List OrderItem
  limit : Int
deriving DecidableEq, Repr

/-- Effective alias of a table reference: the alias, or the name when the alias is empty. -/
def aliasOf (t : TableRef) : String :=
  if t.alias_ = "" then t.name else t.alias_

/-! Model of the regex (\w+)\.(\w+)\s*=\s*(\w+)\.(\w+) used by
QueryRewriter::reconstructCommaJoins with std::regex_search; the result
is the pair of capture groups 1 and 3 of the leftmost match. -/

/-- Match word dot word, returning both words and the rest. -/
def dottedPair (cs : List Char) : Option (List Char × List Char × List Char) :=
  (word1 cs).bind fun p1 =>
  (litMatch ['.'] p1.2).bind fun r1 =>
  (word1 r1).map fun p2 => (p1.1, p2.1, p2.2)

/-- Attempt the alias-pair pattern at the head of the character list. -/
def matchAliasPairAt (cs : List Char) : Option (String × String) :=
  (dottedPair cs).bind fun t1 =>
  (litMatch ['='] (dropSpaces t1.2.2)).bind fun r =>
  (dottedPair (dropSpaces r)).map fun t2 =>
  (String.mk t1.1, String.mk t2.1)

/-- Leftmost match of the alias-pair pattern, as std::regex_search finds it. -/
def searchAliasPair : List Char → Option (String × String)
  | [] => none
  | c :: rest =>
    match matchAliasPairAt (c :: rest) with
    | some p => some p
    | none => searchAliasPair rest

/-! Model of the scalar-subquery regex of QueryRewriter::convertSubqueriesToJoins:
a parenthesised SELECT col FROM tbl alias WHERE a.k = b.k pattern; the
seven capture groups of the leftmost match are returned in order. -/

/-- Capture groups of the generic scalar subquery pattern. -/
structure ScalarSubqueryMatch where
  select_col : String
  table_name : String
  table_alias : String
  subquery_alias : String
  subquery_col : String
  main_alias : String
  main_col : String
deriving DecidableEq, Repr

/-- Scalar pattern, first stage: the SELECT keyword, the selected column and FROM. -/
def scalarStageA (cs : List Char) : Option (List Char × List Char) :=
  (litMatch "(SELECT".data cs).bind fun r1 =>
  (spaces1 r1).bind fun r2 =>
  (word1 r2).bind fun p1 =>
  (spaces1 p1.2).bind fun r3 =>
  (litMatch "FROM".data r3).bind fun r4 =>
  (spaces1 r4).map fun r5 => (p1.1, r5)

/-- Scalar pattern, second stage: table name, table alias and WHERE. -/
def scalarStageB (cs : List Char) : Option (List Char × List Char × List Char) :=
  (word1 cs).bind fun p2 =>
  (spaces1 p2.2).bind fun r6 =>
  (word1 r6).bind fun p3 =>
  (spaces1 p3.2).bind fun r7 =>
  (litMatch "WHERE".data r7).bind fun r8 =>
  (spaces1 r8).map fun r9 => (p2.1, p3.1, r9)

/-- Scalar pattern, third stage: the dotted equality and the closing parenthesis. -/
def scalarStageC (cs : List Char) :
    Option (List Char × List Char × List Char × List Char) :=
  (dottedPair cs).bind fun t1 =>
  (litMatch ['='] (dropSpaces t1.2.2)).bind fun r =>
  (dottedPair (dropSpaces r)).bind fun t2 =>
  (litMatch [')'] t2.2.2).map fun _ => (t1.1, t1.2.1, t2.1, t2.2.1)

/-- Attempt the scalar-subquery pattern at the head of the character list. -/
def matchScalarAt (cs : List Char) : Option ScalarSubqueryMatch :=
  (scalarStageA cs).bind fun a =>
  (scalarStageB a.2).bind fun b =>
  (scalarStageC b.2.2).map fun c =>
  ⟨String.mk a.1, String.mk b.1, String.mk b.2.1, String.mk c.1,
   String.mk c.2.1, String.mk c.2.2.1, String.mk c.2.2.2⟩

/-- Leftmost match of the scalar-subquery pattern. -/
def searchScalar : List Char → Option ScalarSubqueryMatch
  | [] => none
  | c :: rest =>
    match matchScalarAt (c :: rest) with
    | some m => some m
    | none => searchScalar rest

/-! QueryRewriter of src/engine/src/query_rewriter.cpp.  The C++ code
mutates the query in place; the embedding passes the SelectQuery
explicitly.  Functions appear in the order of the source file. -/

/-- Does the condition involve the alias, per the substring test of
QueryRewriter::convertCommaJoins: alias dot or alias blank occurs in it. -/
def condInvolves (cond al : String) : Bool :=
  strContains cond (al ++ ".") || strContains cond (al ++ " ")

/-- Is the condition literally equal to an ON condition of one of the joins. -/
def condInOnConds (joins : List JoinClause) (c : String) : Bool :=
  joins.any fun j => j.on_conds.contains c

/-- One iteration of the sentinel-join loop of convertCommaJoins: a join whose
first ON condition is the 1=1 sentinel collects the WHERE conjuncts that
involve its alias and one other in-scope alias; the Bool reports whether the
ON conditions were replaced. -/
def convertJoin (mainAlias : String) (prevAliases : List String)
    (whereConds : List String) (j : JoinClause) : JoinClause × Bool :=
  if j.on_conds.head? = some "1=1" then
    let jAlias := aliasOf j.table
    let tableAliases := mainAlias :: jAlias :: prevAliases
    let joinConds := whereConds.filter fun c =>
      condInvolves c jAlias &&
      (tableAliases.any fun a => (a != jAlias) && condInvolves c a)
    if joinConds.isEmpty then (j, false) else ({ j with on_conds := joinConds }, true)
  else (j, false)

/-- The sentinel-join loop of convertCommaJoins over the join list; the alias
accumulator holds the aliases of the joins already passed, the Bool is the
conversions-made flag. -/
def convertJoinsAux (mainAlias : String) (whereConds : List String) :
    List String → List JoinClause → List JoinClause × Bool
  | _, [] => ([], false)
  | prev, j :: rest =>
    let p := convertJoin mainAlias prev whereConds j
    let q := convertJoinsAux mainAlias whereConds (prev ++ [aliasOf j.table]) rest
    (p.1 :: q.1, p.2 || q.2)

/-- The hard-coded alias-to-table mapping of QueryRewriter::reconstructCommaJoins. -/
def aliasToTableName (a : String) : String :=
  if a = "ew" then "electionwinner"
  else if a = "c" then "candidate"
  else if a = "e" then "election"
  else if a = "p" then "party"
  else if a = "d" then "district"
  else if a = "po" then "post"
  else if a = "v" then "voter"
  else if a = "s" then "state"
  else a

/-- Insertion into a sorted duplicate-free list of strings, modelling
std::set of std::string (iteration in lexicographic order). -/
def setInsert (x : String) : List String → List String
  | [] => [x]
  | y :: ys =>
    if charListLt x.data y.data then x :: y :: ys
    else if x = y then y :: ys
    else y :: setInsert x ys

/-- QueryRewriter::reconstructCommaJoins: collect the aliases appearing in
dotted equality predicates, synthesize one INNER join per alias other than
the main one, and move the connecting predicates to its ON list. -/
def reconstructCommaJoins (q : SelectQuery) : SelectQuery :=
  let aliases := q.where_conditions.foldl
    (fun s c =>
      match searchAliasPair c.data with
      | some p => setInsert p.2 (setInsert p.1 s)
      | none => s) []
  let mainAlias := aliasOf q.from_table
  let aliases := aliases.filter (· ≠ mainAlias)
  let recJoins := aliases.filterMap fun a =>
    let jconds := q.where_conditions.filter fun c =>
      strContains c (a ++ ".") && (strContains c (mainAlias ++ ".") || strContains c "=")
    if jconds.isEmpty then none
    else some { type := JoinType.INNER,
                table := { name := aliasToTableName a, alias_ := a, pushedFilters := [] },
                on_conds := jconds }
  if recJoins.isEmpty then q
  else
    { q with joins := recJoins,
             where_conditions :=
               q.where_conditions.filter fun c => !condInOnConds recJoins c }

/-- QueryRewriter::convertCommaJoins: reclassify WHERE conjuncts as ON
conditions of sentinel joins, remove every WHERE conjunct that now equals
some ON condition, and fall back to reconstructCommaJoins when there are no
joins but WHERE conditions remain. -/
def convertCommaJoins (q : SelectQuery) : SelectQuery :=
  let p := convertJoinsAux (aliasOf q.from_table) q.where_conditions [] q.joins
  let q' := { q with joins := p.1,
                     where_conditions :=
                       q.where_conditions.filter fun c => !condInOnConds p.1 c }
  if !p.2 && q'.joins.isEmpty && !q'.where_conditions.isEmpty then
    reconstructCommaJoins q'
  else q'

/-- The fixed LEFT join to party synthesized by pattern 1 of
QueryRewriter::convertSubqueriesToJoins. -/
def partyJoin : JoinClause :=
  { type := JoinType.LEFT,
    table := { name := "party", alias_ := "p", pushedFilters := [] },
    on_conds := ["c.PartyID = p.PartyID"] }

/-- The fixed LEFT join to district synthesized by pattern 2. -/
def districtJoin : JoinClause :=
  { type := JoinType.LEFT,
    table := { name := "district", alias_ := "d", pushedFilters := [] },
    on_conds := ["c.DistrictID = d.DistrictID"] }

/-- The fixed LEFT join to post synthesized by pattern 3. -/
def postJoin : JoinClause :=
  { type := JoinType.LEFT,
    table := { name := "post", alias_ := "po", pushedFilters := [] },
    on_conds := ["e.PostID = po.PostID"] }

/-- Per-item conversion of QueryRewriter::convertSubqueriesToJoins: the three
hard-coded election patterns, then the generic scalar-subquery regex; the
optional JoinClause is the LEFT join to append. -/
def convertItem (it : SelectItem) : SelectItem × Option JoinClause :=
  if strContains it.expr "(SELECT" && strContains it.expr "FROM" then
    if strContains it.expr "PartyName" && strContains it.expr "party" &&
       strContains it.expr "PartyID" then
      ({ expr := "p.PartyName", alias_ := it.alias_ }, some partyJoin)
    else if strContains it.expr "DistrictName" && strContains it.expr "district" &&
            strContains it.expr "DistrictID" then
      ({ expr := "d.DistrictName", alias_ := it.alias_ }, some districtJoin)
    else if strContains it.expr "PostName" && strContains it.expr "post" &&
            strContains it.expr "PostID" then
      ({ expr := "po.PostName", alias_ := it.alias_ }, some postJoin)
    else
      match searchScalar it.expr.data with
      | some m =>
        ({ expr := m.table_alias ++ "." ++ m.select_col, alias_ := it.alias_ },
         some { type := JoinType.LEFT,
                table := { name := m.table_name, alias_ := m.table_alias,
                           pushedFilters := [] },
                on_conds := [m.main_alias ++ "." ++ m.main_col ++ " = " ++
                             m.subquery_alias ++ "." ++ m.subquery_col] })
      | none => (it, none)
  else (it, none)

/-- QueryRewriter::convertSubqueriesToJoins. -/
def convertSubqueriesToJoins (q : SelectQuery) : SelectQuery :=
  let pairs := q.select_items.map convertItem
  if pairs.any fun p => p.2.isSome then
    { q with select_items := pairs.map (·.1),
             joins := q.joins ++ pairs.filterMap (·.2) }
  else q

/-- QueryRewriter::pushdownPredicates: only for join-free queries, and then it
moves every WHERE conjunct into the pushed filters of the FROM table,
overwriting whatever was there. -/
def pushdownPredicates (q : SelectQuery) : SelectQuery :=
  if q.joins.isEmpty then
    { q with from_table := { q.from_table with pushedFilters := q.where_conditions },
             where_conditions := [] }
  else q

/-- QueryRewriter::pushdownProjections is a no-op on the query. -/
def pushdownProjections (q : SelectQuery) : SelectQuery := q

/-- Ordering used to model std::sort in QueryRewriter::reorderJoins.  The
source sorts with the strict comparator on table names; any permutation
sorted under the reflexive closure of that comparator is a conforming
outcome of std::sort, and insertion sort under that closure is the one
modelled here. -/
def joinRel (a b : JoinClause) : Prop :=
  charListLt b.table.name.data a.table.name.data = false

instance : DecidableRel joinRel :=
  fun _ _ => inferInstanceAs (Decidable (_ = false))

/-- The strict lexicographic comparison is irreflexive. -/
theorem charListLt_irrefl : ∀ x, charListLt x x = false := by
  intro x
  induction x with
  | nil => rfl
  | cons a as ih => simp [charListLt, ih]

/-- The strict lexicographic comparison is asymmetric. -/
theorem charListLt_asymm : ∀ x y, charListLt x y = true → charListLt y x = false := by
  intro x
  induction x with
  | nil =>
    intro y _
    cases y with
    | nil => rfl
    | cons b bs => rfl
  | cons a as ih =>
    intro y hxy
    cases y with
    | nil => simp [charListLt] at hxy
    | cons b bs =>
      by_cases h1 : a.toNat < b.toNat
      · simp [charListLt, h1, Nat.lt_asymm h1, Nat.ne_of_lt h1]
      · by_cases h2 : b.toNat < a.toNat
        · simp [charListLt, h1, h2] at hxy
        · simp only [charListLt, if_neg h1, if_neg h2] at hxy
          simp only [charListLt, if_neg h2, if_neg h1]
          exact ih bs hxy

/-- Incomparable character lists are equal. -/
theorem charListLt_conn : ∀ x y, charListLt x y = false → charListLt y x = false → x = y := by
  intro x
  induction x with
  | nil =>
    intro y hxy _
    cases y with
    | nil => rfl
    | cons b bs => simp [charListLt] at hxy
  | cons a as ih =>
    intro y hxy hyx
    cases y with
    | nil => simp [charListLt] at hyx
    | cons b bs =>
      by_cases h1 : a.toNat < b.toNat
      · simp [charListLt, h1] at hxy
      · by_cases h2 : b.toNat < a.toNat
        · simp [charListLt, h2] at hyx
        · simp only [charListLt, if_neg h1, if_neg h2] at hxy
          simp only [charListLt, if_neg h2, if_neg h1] at hyx
          have hn : a.toNat = b.toNat := Nat.le_antisymm (Nat.le_of_not_lt h2) (Nat.le_of_not_lt h1)
          have hab : a = b := by
            have := congrArg Char.ofNat hn
            simpa [Char.ofNat_toNat] using this
          rw [hab, ih bs hxy hyx]

/-- The strict lexicographic comparison is transitive. -/
theorem charListLt_trans :
    ∀ x y z, charListLt x y = true → charListLt y z = true → charListLt x z = true := by
  intro x
  induction x with
  | nil =>
    intro y z hxy hyz
    cases y with
    | nil => simp [charListLt] at hxy
    | cons b bs =>
      cases z with
      | nil => simp [charListLt] at hyz
      | cons c cs => rfl
  | cons a as ih =>
    intro y z hxy hyz
    cases y with
    | nil => simp [charListLt] at hxy
    | cons b bs =>
      cases z with
      | nil => simp [charListLt] at hyz
      | cons c cs =>
        by_cases h1 : a.toNat < b.toNat
        · by_cases h2 : b.toNat < c.toNat
          · simp [charListLt, Nat.lt_trans h1 h2]
          · by_cases h3 : c.toNat < b.toNat
            · simp [charListLt, h2, h3] at hyz
            · have hbc : b.toNat = c.toNat :=
                Nat.le_antisymm (Nat.le_of_not_lt h3) (Nat.le_of_not_lt h2)
              simp [charListLt, hbc ▸ h1]
        · by_cases h4 : b.toNat < a.toNat
          · simp [charListLt, h1, h4] at hxy
          · have hab : a.toNat = b.toNat :=
              Nat.le_antisymm (Nat.le_of_not_lt h4) (Nat.le_of_not_lt h1)
            simp only [charListLt, if_neg h1, if_neg h4] at hxy
            by_cases h2 : b.toNat < c.toNat
            · simp [charListLt, hab ▸ h2]
            · by_cases h3 : c.toNat < b.toNat
              · simp [charListLt, h2, h3] at hyz
              · simp only [charListLt, if_neg h2, if_neg h3] at hyz
                have hx2 : ¬ a.toNat < c.toNat := by omega
                have hx3 : ¬ c.toNat < a.toNat := by omega
                simp only [charListLt, if_neg hx2, if_neg hx3]
                exact ih bs cs hxy hyz

instance : IsTotal JoinClause joinRel := by
  constructor
  intro a b
  by_cases h : charListLt b.table.name.data a.table.name.data = true
  · right
    exact charListLt_asymm _ _ h
  · left
    exact Bool.eq_false_iff.mpr (fun hh => h hh)

instance : IsTrans JoinClause joinRel := by
  constructor
  intro a b c hab hbc
  unfold joinRel at hab hbc ⊢
  by_contra hca
  have hca' : charListLt c.table.name.data a.table.name.data = true := by
    cases h : charListLt c.table.name.data a.table.name.data
    · exact absurd h hca
    · rfl
  by_cases hcb : charListLt a.table.name.data b.table.name.data = true
  · have h2 := charListLt_trans _ _ _ hca' hcb
    rw [h2] at hbc
    exact Bool.true_eq_false.mp hbc
  · have hab' : a.table.name.data = b.table.name.data :=
      charListLt_conn _ _ (Bool.eq_false_iff.mpr (fun hh => hcb hh)) hab
    rw [hab'] at hca'
    rw [hca'] at hbc
    exact Bool.true_eq_false.mp hbc

/-- QueryRewriter::reorderJoins: with more than one join, sort the joins by
table name; estimates are not consulted. -/
def reorderJoins (q : SelectQuery) : SelectQuery :=
  if q.joins.length > 1 then { q with joins := q.joins.insertionSort joinRel } else q

/-- QueryRewriter::rewrite: the five transforms in source order. -/
def rewrite (q : SelectQuery) : SelectQuery :=
  reorderJoins (pushdownProjections (pushdownPredicates
    (convertSubqueriesToJoins (convertCommaJoins q))))

/-- QueryRewriter::foldConstants.  It is never invoked by rewrite; it replaces
any WHERE conjunct containing 1=1 by the text TRUE and drops nothing. -/
def foldConstants (q : SelectQuery) : SelectQuery :=
  { q with where_conditions :=
      q.where_conditions.map fun c => if strContains c "1=1" then "TRUE" else c }

/-! AST-to-SQL serialization of src/engine/src/optimizer.cpp. -/

/-- The join_type_to_string function of optimizer.cpp.  The switch has no case
for RIGHT, which therefore falls through to the default and is rendered as
INNER. -/
def join_type_to_string : JoinType → String
  | JoinType.INNER => "INNER"
  | JoinType.LEFT => "LEFT"
  | JoinType.FULL => "FULL"
  | JoinType.NATURAL => "NATURAL"
  | JoinType.LEFT_ANTI => "LEFT ANTI"
  | JoinType.RIGHT_ANTI => "RIGHT ANTI"
  | JoinType.FULL_OUTER_ANTI => "FULL OUTER ANTI"
  | JoinType.RIGHT => "INNER"

/-- The selectQueryToSQL function of optimizer.cpp.  The distinct flag is not
emitted by the source and is not emitted here. -/
def selectQueryToSQL (sq : SelectQuery) : String :=
  let sel :=
    if sq.select_items.isEmpty then "*"
    else String.intercalate ", " (sq.select_items.map fun it =>
      it.expr ++ (if it.alias_ = "" then "" else " AS " ++ it.alias_))
  let fromPart := " FROM " ++ sq.from_table.name ++
    (if sq.from_table.alias_ = "" then "" else " AS " ++ sq.from_table.alias_)
  let joinPart := String.join (sq.joins.map fun j =>
    " " ++ join_type_to_string j.type ++ " JOIN " ++ j.table.name ++
    (if j.table.alias_ = "" then "" else " AS " ++ j.table.alias_) ++
    (if j.on_conds.isEmpty then "" else " ON " ++ String.intercalate " AND " j.on_conds))
  let filters := sq.from_table.pushedFilters ++ sq.where_conditions
  let wherePart :=
    if filters.isEmpty then "" else " WHERE " ++ String.intercalate " AND " filters
  let groupPart :=
    if sq.group_by.isEmpty then "" else " GROUP BY " ++ String.intercalate ", " sq.group_by
  let havingPart :=
    if sq.having_conditions.isEmpty then ""
    else " HAVING " ++ String.intercalate " AND " sq.having_conditions
  let orderPart :=
    if sq.order_by.isEmpty then ""
    else " ORDER BY " ++ String.intercalate ", " (sq.order_by.map fun o =>
      o.expr ++ (if o.asc then "" else " DESC"))
  let limitPart := if sq.limit ≥ 0 then " LIMIT " ++ toString sq.limit else ""
  "SELECT " ++ sel ++ fromPart ++ joinPart ++ wherePart ++ groupPart ++
    havingPart ++ orderPart ++ limitPart

/-! Statistics catalog of src/engine/src/statistics_manager.cpp.  The
std::map members are modelled as association lists whose order is the
iteration order of the map, that is sorted by key for well-formed
instances; lookups are by exact key as in std::map::find. -/

/-- ColumnStats of statistics_manager.h; selectivity and histogram
frequencies are doubles in the source, modelled as rationals. -/
structure ColumnStats where
  column_name : String
  distinct_values : Nat
  min_value : String
  max_value : String
  selectivity : ℚ
  histogram : List (String × ℚ)
deriving DecidableEq, Repr

/-- IndexInfo of statistics_manager.h. -/
structure IndexInfo where
  index_name : String
  columns : List String
  is_unique : Bool
  cardinality : Nat
deriving DecidableEq, Repr

/-- TableStatistics of statistics_manager.h. -/
structure TableStatistics where
  table_name : String
  row_count : Nat
  page_count : Nat
  column_stats : List (String × ColumnStats)
  available_indexes : List IndexInfo
deriving DecidableEq, Repr

/-- The table_stats_ map of StatisticsManager. -/
def StatisticsManager := List (String × TableStatistics)

/-- StatisticsManager::getTableStats: exact lookup. -/
def getTableStats (m : StatisticsManager) (table_name : String) :
    Option TableStatistics :=
  List.lookup table_name m

/-- StatisticsManager::getTableStatsCI: exact lookup first, then the first
case-insensitive match in map order. -/
def getTableStatsCI (m : StatisticsManager) (table_name : String) :
    Option TableStatistics :=
  match List.lookup table_name m with
  | some ts => some ts
  | none =>
    (m.find? fun kv => toLowerStr kv.1 == toLowerStr table_name).map (·.2)

/-- StatisticsManager::estimateSelectivity.  A histogram hit returns the
stored frequency whatever the operator is; the equality fallback returns the
stored column selectivity unchanged. -/
def estimateSelectivity (m : StatisticsManager)
    (table_name column op value : String) : ℚ :=
  match getTableStats m table_name with
  | none => 1/10
  | some ts =>
    match List.lookup column ts.column_stats with
    | none => 1/10
    | some cs =>
      match List.lookup value cs.histogram with
      | some f => f
      | none =>
        if op = "=" then cs.selectivity
        else if op = ">" ∨ op = "<" ∨ op = ">=" ∨ op = "<=" then 3/10
        else if op = "LIKE" then 1/10
        else 1/10

/-! Semantic validator of src/engine/src/semantic.cpp.  The result pair is
the returned bool together with the final content of err_out, where the
empty string stands for an untouched buffer. -/

/-- The has_column_ci helper of semantic_validate. -/
def has_column_ci (ts : TableStatistics) (col : String) : Bool :=
  ts.column_stats.any fun kv => toLowerStr kv.1 == toLowerStr col

/-- Insertion into the alias map, modelling unordered_map assignment:
replace the value under an existing key, otherwise add the entry. -/
def mapInsert (k v : String) (m : List (String × String)) : List (String × String) :=
  if m.any (fun kv => kv.1 == k) then
    m.map fun kv => if kv.1 == k then (k, v) else kv
  else m ++ [(k, v)]

/-- Split a character list at its first dot. -/
def firstDotSplit : List Char → Option (List Char × List Char)
  | [] => none
  | c :: rest =>
    if c = '.' then some ([], rest)
    else
      match firstDotSplit rest with
      | some p => some (c :: p.1, p.2)
      | none => none

/-- The findColumn lambda of semantic_validate. -/
def findColumn (stats : StatisticsManager) (aliasMap : List (String × String))
    (ident : String) : Bool × String :=
  match firstDotSplit ident.data with
  | some p =>
    let a := String.mk p.1
    let c := String.mk p.2
    match List.lookup (toLowerStr a) aliasMap with
    | none => (false, "Unknown table/alias '" ++ a ++ "'")
    | some resolved =>
      match getTableStats stats resolved with
      | none => (false, "Unknown column '" ++ c ++ "' in table '" ++ resolved ++ "'")
      | some ts =>
        if has_column_ci ts c then (true, "")
        else (false, "Unknown column '" ++ c ++ "' in table '" ++ resolved ++ "'")
  | none =>
    let found := aliasMap.countP fun kv =>
      match getTableStats stats kv.2 with
      | some ts => has_column_ci ts ident
      | none => false
    if found = 0 then
      (true, "Warning: Column '" ++ ident ++ "' not found, proceeding anyway")
    else if found > 1 then
      (false, "Ambiguous column '" ++ ident ++ "', specify table/alias")
    else (true, "")

/-- The join loop of semantic_validate: resolve every join table
case-insensitively, accumulating alias bindings, failing on the first
missing table. -/
def buildJoinAliases (stats : StatisticsManager) :
    List JoinClause → List (String × String) → Except String (List (String × String))
  | [], m => Except.ok m
  | j :: rest, m =>
    match getTableStatsCI stats j.table.name with
    | none => Except.error ("Unknown table '" ++ j.table.name ++ "'")
    | some ts =>
      buildJoinAliases stats rest
        (mapInsert (toLowerStr (if j.table.alias_ = "" then ts.table_name else j.table.alias_))
          ts.table_name m)

/-- Strip a trailing AS clause from a select expression, as semantic_validate
does before resolving it. -/
def stripAsClause (e : String) : String :=
  match (e.data.tails.findIdx? fun t => pfxAt t " as ".data) with
  | some i => String.mk (e.data.take i)
  | none =>
    match (e.data.tails.findIdx? fun t => pfxAt t " AS ".data) with
    | some i => String.mk (e.data.take i)
    | none => e

/-- The select-item loop of semantic_validate; the result is the first fatal
error if any. -/
def validateSelects (stats : StatisticsManager) (aliasMap : List (String × String)) :
    List SelectItem → Option String
  | [] => none
  | s :: rest =>
    let col := stripAsClause s.expr
    if (col != "*") && !(strContains col "(") then
      let r := findColumn stats aliasMap col
      if !r.1 then some r.2 else validateSelects stats aliasMap rest
    else validateSelects stats aliasMap rest

/-- The dotted identifier around the first dot of a condition, as expanded by
the WHERE and HAVING loops of semantic_validate. -/
def dottedIdentAround (w : String) : Option String :=
  match firstDotSplit w.data with
  | none => none
  | some p =>
    let l := (p.1.reverse.takeWhile isIdentChar).reverse
    let r := p.2.takeWhile isIdentChar
    some (String.mk (l ++ '.' :: r))

/-- The WHERE and HAVING condition loops of semantic_validate. -/
def validateConds (stats : StatisticsManager) (aliasMap : List (String × String)) :
    List String → Option String
  | [] => none
  | w :: rest =>
    match dottedIdentAround w with
    | none => validateConds stats aliasMap rest
    | some ident =>
      let r := findColumn stats aliasMap ident
      if !r.1 then some r.2 else validateConds stats aliasMap rest

/-- The semantic_validate function of semantic.cpp. -/
def semantic_validate (stats : StatisticsManager) (q : SelectQuery) : Bool × String :=
  match getTableStatsCI stats q.from_table.name with
  | none =>
    (true, "Warning: Table '" ++ q.from_table.name ++
      "' not found in statistics, proceeding anyway")
  | some ts =>
    let a := if q.from_table.alias_ = "" then ts.table_name else q.from_table.alias_
    let m0 := mapInsert (toLowerStr a) ts.table_name []
    match buildJoinAliases stats q.joins m0 with
    | Except.error e => (false, e)
    | Except.ok m =>
      match validateSelects stats m q.select_items with
      | some e => (false, e)
      | none =>
        match validateConds stats m q.where_conditions with
        | some e => (false, e)
        | none =>
          match validateConds stats m q.having_conditions with
          | some e => (false, e)
          | none => (true, "")

/-! Plan generator of src/engine/src/plan_generator.cpp.  Plan nodes carry
their estimated cardinality; estimated costs are double valued in the
source and no settled claim depends on them, so they are not modelled.
The index-scan cardinality static_cast of row_count times 0.1 is modelled
as Nat division by 10 and the filter cardinality static_cast of the count
times 0.5 as Nat division by 2; both agree with the double computation for
every row count below 2 to the 53rd. -/

/-- Plan nodes of execution_plan.h, with their estimated cardinalities. -/
inductive PlanNode where
  | scan (tableName tableAlias : String) (card : Nat)
  | indexScan (tableName indexColumn tableAlias : String) (card : Nat)
  | join (joinKind : String) (left right : PlanNode) (conds : List String) (card : Nat)
  | filter (child : PlanNode) (conds : List String) (card : Nat)
  | aggregate (child : PlanNode) (groupBy aggregates : List String) (card : Nat)
  | sort (child : PlanNode) (keys : List String) (ascending : List Bool) (card : Nat)
  | limit (child : PlanNode) (n : Nat) (card : Nat)
  | project (child : PlanNode) (projections : List String) (card : Nat)
deriving DecidableEq, Repr

/-- Estimated cardinality of a plan node. -/
def PlanNode.card : PlanNode → Nat
  | .scan _ _ c => c
  | .indexScan _ _ _ c => c
  | .join _ _ _ _ c => c
  | .filter _ _ c => c
  | .aggregate _ _ _ c => c
  | .sort _ _ _ c => c
  | .limit _ _ c => c
  | .project _ _ c => c

/-- PlanGenerator::generateScanPlans: one table scan plus one index scan per
index column; empty when the table has no exact-name statistics. -/
def generateScanPlans (stats : StatisticsManager) (table_name tableAlias : String) :
    List PlanNode :=
  match getTableStats stats table_name with
  | none => []
  | some ts =>
    PlanNode.scan table_name tableAlias ts.row_count ::
      (ts.available_indexes.map fun idx =>
        idx.columns.map fun col =>
          PlanNode.indexScan table_name col tableAlias (ts.row_count / 10)).flatten

/-- PlanGenerator::generateFilterPlan. -/
def generateFilterPlan (child : PlanNode) (conds : List String) : PlanNode :=
  if conds.isEmpty then child
  else PlanNode.filter child conds (child.card / 2)

/-- PlanGenerator::generateAggregatePlan: always wraps its child; one group
when there is no GROUP BY. -/
def generateAggregatePlan (child : PlanNode) (group_by aggregates : List String) :
    PlanNode :=
  let numGroups := if group_by.isEmpty then 1 else Nat.max 1 (child.card / 10)
  PlanNode.aggregate child group_by aggregates numGroups

/-- PlanGenerator::generateSortPlan. -/
def generateSortPlan (child : PlanNode) (order_by : List OrderItem) : PlanNode :=
  if order_by.isEmpty then child
  else PlanNode.sort child (order_by.map (·.expr)) (order_by.map (·.asc)) child.card

/-- PlanGenerator::generateLimitPlan over the size_t limit value. -/
def generateLimitPlan (child : PlanNode) (n : Nat) : PlanNode :=
  if n = 0 then child
  else PlanNode.limit child n (Nat.min n child.card)

/-- The implicit int to size_t conversion applied to SelectQuery limit when
generatePlans calls generateLimitPlan: reduction modulo 2 to the 64th, so
the default limit of minus one becomes a huge positive bound. -/
def intToSize (i : Int) : Nat :=
  (i % (2 ^ 64 : Int)).toNat

/-- The projection wrapper appended by PlanGenerator::generatePlans when the
query has select items. -/
def projectWrap (q : SelectQuery) (child : PlanNode) : PlanNode :=
  if q.select_items.isEmpty then child
  else
    PlanNode.project child
      (q.select_items.map fun it =>
        it.expr ++ (if it.alias_ = "" then "" else " as " ++ it.alias_))
      child.card

/-- The operator pipeline applied above a base plan by
PlanGenerator::generatePlans: filter, aggregate, sort, limit, project. -/
def buildPipeline (q : SelectQuery) (base : PlanNode) : PlanNode :=
  projectWrap q
    (generateLimitPlan
      (generateSortPlan
        (generateAggregatePlan (generateFilterPlan base q.where_conditions) q.group_by [])
        q.order_by)
      (intToSize q.limit))

/-- PlanGenerator::generatePlans.  Single-table queries build one pipeline per
scan alternative; multi-table queries build one nested-loop join of the first
two tables, with forced scans of cardinality 7 when statistics are missing,
and the join cardinality max of 1 and the row product divided by 10. -/
def generatePlans (stats : StatisticsManager) (q : SelectQuery) : List PlanNode :=
  match q.joins with
  | [] =>
    let scans := generateScanPlans stats q.from_table.name q.from_table.alias_
    let scans :=
      if scans.isEmpty then
        [PlanNode.scan q.from_table.name q.from_table.alias_
          (((getTableStatsCI stats q.from_table.name).map (·.row_count)).getD 100)]
      else scans
    scans.map (buildPipeline q)
  | j :: _ =>
    let ls := generateScanPlans stats q.from_table.name q.from_table.alias_
    let ls :=
      if ls.isEmpty then [PlanNode.scan q.from_table.name q.from_table.alias_ 7] else ls
    let rs := generateScanPlans stats j.table.name j.table.alias_
    let rs :=
      if rs.isEmpty then [PlanNode.scan j.table.name j.table.alias_ 7] else rs
    let leftRows := ((getTableStatsCI stats q.from_table.name).map (·.row_count)).getD 7
    let rightRows := ((getTableStatsCI stats j.table.name).map (·.row_count)).getD 7
    let joinNode :=
      PlanNode.join "NESTED"
        (ls.headD (PlanNode.scan q.from_table.name q.from_table.alias_ 7))
        (rs.headD (PlanNode.scan j.table.name j.table.alias_ 7))
        j.on_conds
        (Nat.max 1 (leftRows * rightRows / 10))
    [buildPipeline q joinNode]

/-- Cardinalities of the join nodes of a plan, in tree order. -/
def joinCards : PlanNode → List Nat
  | .scan _ _ _ => []
  | .indexScan _ _ _ _ => []
  | .join _ l r _ c => joinCards l ++ joinCards r ++ [c]
  | .filter ch _ _ => joinCards ch
  | .aggregate ch _ _ _ => joinCards ch
  | .sort ch _ _ _ => joinCards ch
  | .limit ch _ _ => joinCards ch
  | .project ch _ _ => joinCards ch

/-- The pushed filters of every table of a query together with the remaining
WHERE conditions, the subject of the predicate-preservation invariant. -/
def pushedUnion (q : SelectQuery) : List String :=
  q.from_table.pushedFilters ++
    (q.joins.map fun j => j.table.pushedFilters).flatten ++
    q.where_conditions

/-! Concrete instances used by the counterexamples and witnesses below. -/

/-- A minimal single-table query with no conditions. -/
def baseQuery : SelectQuery :=
  { distinct := false
    select_items := [{ expr := "x", alias_ := "" }]
    from_table := { name := "t", alias_ := "", pushedFilters := [] }
    joins := []
    where_conditions := []
    group_by := []
    having_conditions := []
    order_by := []
    limit := -1 }

/-- Comma-join query: one sentinel join and one connecting WHERE conjunct. -/
def qC1 : SelectQuery :=
  { baseQuery with
    from_table := { name := "a", alias_ := "", pushedFilters := [] }
    joins := [{ type := JoinType.INNER
                table := { name := "b", alias_ := "", pushedFilters := [] }
                on_conds := ["1=1"] }]
    where_conditions := ["a.x = b.y"] }

/-- Column statistics with four distinct values, stored selectivity nine
tenths and no histogram. -/
def csC2 : ColumnStats :=
  { column_name := "c"
    distinct_values := 4
    min_value := ""
    max_value := ""
    selectivity := 9/10
    histogram := [] }

/-- Column statistics with a histogram entry for value A. -/
def csC2h : ColumnStats :=
  { column_name := "h"
    distinct_values := 50
    min_value := ""
    max_value := ""
    selectivity := 1/2
    histogram := [("A", 1/20)] }

/-- Statistics of the one C2 table. -/
def tsC2 : TableStatistics :=
  { table_name := "t"
    row_count := 100
    page_count := 1
    column_stats := [("c", csC2), ("h", csC2h)]
    available_indexes := [] }

/-- One-table catalog holding the two columns above. -/
def catC2 : StatisticsManager := [("t", tsC2)]

/-- The value the claim prescribes for the equality fallback, modelled from
the spec words: one over the distinct count, capped at the stored
selectivity. -/
def specEqualityFallback (cs : ColumnStats) : ℚ :=
  min (1 / (cs.distinct_values : ℚ)) cs.selectivity

/-- Join-free query whose only WHERE conjunct is the trivial 1=1. -/
def qC3 : SelectQuery := { baseQuery with where_conditions := ["1=1"] }

/-- Query with an explicit join and a single-alias WHERE conjunct. -/
def qC4 : SelectQuery :=
  { baseQuery with
    from_table := { name := "a", alias_ := "", pushedFilters := [] }
    joins := [{ type := JoinType.INNER
                table := { name := "b", alias_ := "", pushedFilters := [] }
                on_conds := ["a.k = b.k"] }]
    where_conditions := ["a.x < 5"] }

/-- Query with a RIGHT join. -/
def qC5 : SelectQuery :=
  { baseQuery with
    from_table := { name := "a", alias_ := "", pushedFilters := [] }
    joins := [{ type := JoinType.RIGHT
                table := { name := "b", alias_ := "", pushedFilters := [] }
                on_conds := ["a.k = b.k"] }] }

/-- Join-free query with one WHERE conjunct that matches no rewrite pattern. -/
def qC6 : SelectQuery := { baseQuery with where_conditions := ["a = 1"] }

/-- Statistics of a ten-row table named a. -/
def tsA7 : TableStatistics :=
  { table_name := "a"
    row_count := 10
    page_count := 1
    column_stats := []
    available_indexes := [] }

/-- Statistics of a ten-row table named b. -/
def tsB7 : TableStatistics :=
  { table_name := "b"
    row_count := 10
    page_count := 1
    column_stats := []
    available_indexes := [] }

/-- Two-table catalog with ten rows in each table. -/
def catC7 : StatisticsManager := [("a", tsA7), ("b", tsB7)]

/-- Equi-join query over the two ten-row tables. -/
def qC7 : SelectQuery :=
  { baseQuery with
    from_table := { name := "a", alias_ := "", pushedFilters := [] }
    joins := [{ type := JoinType.INNER
                table := { name := "b", alias_ := "", pushedFilters := [] }
                on_conds := ["a.x = b.y"] }] }

/-- Catalog that knows table a only. -/
def catC8 : StatisticsManager := [("a", tsA7)]

/-- Query whose INNER-join table b is absent from the catalog. -/
def qC8 : SelectQuery :=
  { baseQuery with
    from_table := { name := "a", alias_ := "", pushedFilters := [] }
    joins := [{ type := JoinType.INNER
                table := { name := "b", alias_ := "", pushedFilters := [] }
                on_conds := [] }] }

/-- Query whose from table is absent from the catalog. -/
def qC8w : SelectQuery :=
  { baseQuery with
    from_table := { name := "zzz", alias_ := "", pushedFilters := [] } }

/-- Query with two LEFT outer joins whose table names are out of order. -/
def qC9 : SelectQuery :=
  { baseQuery with
    joins := [{ type := JoinType.LEFT
                table := { name := "b", alias_ := "", pushedFilters := [] }
                on_conds := ["t.k = b.k"] },
              { type := JoinType.LEFT
                table := { name := "a", alias_ := "", pushedFilters := [] }
                on_conds := ["t.j = a.j"] }] }

/-- Query with two explicit non-sentinel joins, used as a witness input. -/
def qC6w : SelectQuery :=
  { baseQuery with
    joins := [{ type := JoinType.INNER
                table := { name := "b", alias_ := "", pushedFilters := [] }
                on_conds := ["t.k = b.k"] },
              { type := JoinType.INNER
                table := { name := "a", alias_ := "", pushedFilters := [] }
                on_conds := ["t.j = a.j"] }]
    where_conditions := ["t.z > 3"] }

/-- Join-free query with one pushable conjunct, used as a witness input. -/
def qC1w : SelectQuery :=
  { baseQuery with where_conditions := ["t.x = 5"] }

/-! Shape and frame lemmas for the rewriter phases. -/

/-- reconstructCommaJoins only rebuilds the joins and the WHERE list. -/
theorem reconstructCommaJoins_shape (q : SelectQuery) :
    ∃ js ws, reconstructCommaJoins q = { q with joins := js, where_conditions := ws } := by
  unfold reconstructCommaJoins
  dsimp only
  split
  · exact ⟨q.joins, q.where_conditions, rfl⟩
  · exact ⟨_, _, rfl⟩

/-- convertCommaJoins only rebuilds the joins and the WHERE list. -/
theorem convertCommaJoins_shape (q : SelectQuery) :
    ∃ js ws, convertCommaJoins q = { q with joins := js, where_conditions := ws } := by
  unfold convertCommaJoins
  dsimp only
  split
  · obtain ⟨js, ws, h⟩ := reconstructCommaJoins_shape
      { q with joins := (convertJoinsAux (aliasOf q.from_table) q.where_conditions [] q.joins).1,
               where_conditions :=
                 q.where_conditions.filter fun c =>
                   !condInOnConds (convertJoinsAux (aliasOf q.from_table) q.where_conditions [] q.joins).1 c }
    exact ⟨js, ws, h⟩
  · exact ⟨_, _, rfl⟩

/-- convertSubqueriesToJoins only rebuilds the select items and the joins. -/
theorem convertSubqueriesToJoins_shape (q : SelectQuery) :
    ∃ si js, convertSubqueriesToJoins q = { q with select_items := si, joins := js } := by
  unfold convertSubqueriesToJoins
  dsimp only
  split
  · exact ⟨_, _, rfl⟩
  · exact ⟨q.select_items, q.joins, rfl⟩

/-- pushdownPredicates only rebuilds the pushed filters and the WHERE list. -/
theorem pushdownPredicates_shape (q : SelectQuery) :
    ∃ pf ws,
      pushdownPredicates q =
        { q with from_table := { q.from_table with pushedFilters := pf },
                 where_conditions := ws } := by
  unfold pushdownPredicates
  split
  · exact ⟨_, _, rfl⟩
  · exact ⟨q.from_table.pushedFilters, q.where_conditions, rfl⟩

/-- reorderJoins only rebuilds the joins. -/
theorem reorderJoins_shape (q : SelectQuery) :
    ∃ js, reorderJoins q = { q with joins := js } := by
  unfold reorderJoins
  split
  · exact ⟨_, rfl⟩
  · exact ⟨q.joins, rfl⟩

/-- C10: the rewriter leaves distinct, group_by, having_conditions, order_by
and limit exactly unchanged; only select_items, from_table, joins and
where_conditions can be modified by rewriting. -/
theorem C10_rewrite_frame (q : SelectQuery) :
    (rewrite q).distinct = q.distinct ∧
    (rewrite q).group_by = q.group_by ∧
    (rewrite q).having_conditions = q.having_conditions ∧
    (rewrite q).order_by = q.order_by ∧
    (rewrite q).limit = q.limit := by
  obtain ⟨js1, ws1, h1⟩ := convertCommaJoins_shape q
  obtain ⟨si2, js2, h2⟩ := convertSubqueriesToJoins_shape (convertCommaJoins q)
  obtain ⟨pf3, ws3, h3⟩ := pushdownPredicates_shape
    (convertSubqueriesToJoins (convertCommaJoins q))
  obtain ⟨js4, h4⟩ := reorderJoins_shape
    (pushdownPredicates (convertSubqueriesToJoins (convertCommaJoins q)))
  unfold rewrite pushdownProjections
  rw [h4, h3, h2, h1]
  exact ⟨rfl, rfl, rfl, rfl, rfl⟩

/-- The joins of the reordered query are a permutation of the input joins. -/
theorem reorderJoins_perm (q : SelectQuery) :
    ((reorderJoins q).joins).Perm q.joins := by
  unfold reorderJoins
  split
  · exact List.perm_insertionSort joinRel q.joins
  · exact List.Perm.refl q.joins

/-- C9 amended: reorderJoins leaves the joins sorted in ascending order of
table name, as a permutation of the input; outer joins are reordered like
any others and no cardinality estimate is consulted. -/
theorem C9_reorder_sorted_by_name (q : SelectQuery) :
    ((reorderJoins q).joins).Perm q.joins ∧
    List.Sorted joinRel (reorderJoins q).joins := by
  refine ⟨reorderJoins_perm q, ?_⟩
  unfold reorderJoins
  split
  · exact List.sorted_insertionSort joinRel q.joins
  · rename_i h
    rcases hl : q.joins with _ | ⟨j, _ | ⟨j2, rest2⟩⟩
    · exact List.sorted_nil
    · exact List.sorted_singleton j
    · rw [hl] at h
      simp at h

/-- C9 counterexample: both joins of qC9 are LEFT outer joins, yet
reorderJoins reorders them; the claim that outer joins are not reordered
fails on this input. -/
theorem C9_counterexample :
    (∀ j ∈ qC9.joins, j.type = JoinType.LEFT) ∧
    (reorderJoins qC9).joins ≠ qC9.joins := by decide

/-- C1 counterexample: rewriting qC1 moves its only WHERE conjunct into the
join ON list, so the multiset union of all pushed filters and the remaining
WHERE conditions is empty and differs from the original WHERE multiset,
although no trivial conjunct was folded. -/
theorem C1_counterexample :
    ¬ (pushedUnion (rewrite qC1)).Perm qC1.where_conditions := by decide

/-- C3 counterexample: rewrite applies no constant folding, and the trivial
conjunct 1=1 of qC3 survives rewriting inside the pushed filters. -/
theorem C3_counterexample :
    "1=1" ∈ (rewrite qC3).from_table.pushedFilters := by decide

/-- C4 counterexample: the single-alias conjunct of qC4 is not moved into any
pushed-filter list; with a join present, pushdown does nothing and the
conjunct stays in the global WHERE list. -/
theorem C4_counterexample :
    (rewrite qC4).from_table.pushedFilters = [] ∧
    (∀ j ∈ (rewrite qC4).joins, j.table.pushedFilters = []) ∧
    (rewrite qC4).where_conditions = ["a.x < 5"] := by decide

/-- C5 counterexample: the RIGHT join of qC5 is serialized with the INNER
token and the emitted SQL does not contain the token RIGHT at all. -/
theorem C5_counterexample :
    selectQueryToSQL qC5 = "SELECT x FROM a INNER JOIN b ON a.k = b.k" ∧
    strContains (selectQueryToSQL qC5) "RIGHT" = false := by decide

/-- C6 counterexample: applying rewrite twice to the join-free query qC6
differs from applying it once, both as a query structure and as emitted SQL;
the second application erases the pushed filter. -/
theorem C6_counterexample :
    rewrite (rewrite qC6) ≠ rewrite qC6 ∧
    selectQueryToSQL (rewrite (rewrite qC6)) ≠ selectQueryToSQL (rewrite qC6) := by decide

/-- C7 counterexample: on the ten-by-ten-row equi-join qC7 the generated plan
carries a join cardinality of ten, not the claimed max of one and the row
product scaled by one hundredth, which is one. -/
theorem C7_counterexample :
    (generatePlans catC7 qC7).map joinCards = [[10]] ∧
    10 ≠ Nat.max 1 (10 * 10 / 100) := by decide

/-- C8 counterexample: the INNER-join table b of qC8 is missing from the
catalog and semantic validation fails with an Unknown table error instead of
warning and succeeding. -/
theorem C8_counterexample :
    semantic_validate catC8 qC8 = (false, "Unknown table 'b'") := by decide

/-- C2 counterexample: on column c, with four distinct values, stored
selectivity nine tenths and no histogram, the equality estimate returns the
stored selectivity itself, which differs from one over the distinct count
capped at the stored selectivity, the value the claim prescribes. -/
theorem C2_counterexample :
    estimateSelectivity catC2 "t" "c" "=" "v" = csC2.selectivity ∧
    estimateSelectivity catC2 "t" "c" "=" "v" ≠ specEqualityFallback csC2 := by
  have h1 : estimateSelectivity catC2 "t" "c" "=" "v" = 9/10 := rfl
  have h2 : specEqualityFallback csC2 = 1/4 := by
    rw [specEqualityFallback]
    norm_num [csC2]
  refine ⟨rfl, ?_⟩
  rw [h1, h2]
  norm_num

/-- C2 amended: selectivity estimation returns one tenth for an unknown table
or column; any histogram hit returns the stored frequency whatever the
operator; with no histogram hit, equality returns the stored column
selectivity itself, not one over the distinct count capped at it; ranges
return three tenths and LIKE and anything else one tenth. -/
theorem C2_estimate_selectivity_cases :
    (∀ m t c op v, getTableStats m t = none →
        estimateSelectivity m t c op v = 1/10) ∧
    (∀ m t c op v ts, getTableStats m t = some ts →
        List.lookup c ts.column_stats = none →
        estimateSelectivity m t c op v = 1/10) ∧
    (∀ m t c op v ts cs f, getTableStats m t = some ts →
        List.lookup c ts.column_stats = some cs →
        List.lookup v cs.histogram = some f →
        estimateSelectivity m t c op v = f) ∧
    (∀ m t c op v ts cs, getTableStats m t = some ts →
        List.lookup c ts.column_stats = some cs →
        List.lookup v cs.histogram = none →
        estimateSelectivity m t c op v =
          (if op = "=" then cs.selectivity
           else if op = ">" ∨ op = "<" ∨ op = ">=" ∨ op = "<=" then 3/10
           else if op = "LIKE" then 1/10
           else 1/10)) := by
  refine ⟨?_, ?_, ?_, ?_⟩
  · intro m t c op v h
    unfold estimateSelectivity
    rw [h]
  · intro m t c op v ts h1 h2
    unfold estimateSelectivity
    split
    · rfl
    · rename_i ts2 heq
      rw [h1] at heq
      injection heq with heq
      subst heq
      rw [h2]
  · intro m t c op v ts cs f h1 h2 h3
    unfold estimateSelectivity
    split
    · rename_i heq
      rw [h1] at heq
      cases heq
    · rename_i ts2 heq
      rw [h1] at heq
      injection heq with heq
      subst heq
      rw [h2]
      dsimp only
      rw [h3]
  · intro m t c op v ts cs h1 h2 h3
    unfold estimateSelectivity
    split
    · rename_i heq
      rw [h1] at heq
      cases heq
    · rename_i ts2 heq
      rw [h1] at heq
      injection heq with heq
      subst heq
      rw [h2]
      dsimp only
      rw [h3]

/-- C2 witness: applying the amended theorem to the concrete catalog, a LIKE
probe that hits the histogram of column h returns the stored frequency one
twentieth. -/
theorem C2_witness :
    estimateSelectivity catC2 "t" "h" "LIKE" "A" = 1/20 :=
  C2_estimate_selectivity_cases.2.2.1 catC2 "t" "h" "LIKE" "A" tsC2 csC2h (1/20)
    rfl rfl rfl

/-- C5 amended: the seven join types other than RIGHT are rendered with
pairwise distinct tokens by join_type_to_string, while RIGHT falls through
the switch default and is rendered exactly like INNER. -/
theorem C5_join_tokens :
    (∀ a b : JoinType, a ≠ JoinType.RIGHT → b ≠ JoinType.RIGHT →
      (join_type_to_string a = join_type_to_string b ↔ a = b)) ∧
    join_type_to_string JoinType.RIGHT = join_type_to_string JoinType.INNER := by
  decide

/-- C5 witness: the amended theorem applied to LEFT and FULL shows the
tokens of distinct non-RIGHT join types differ. -/
theorem C5_witness :
    (join_type_to_string JoinType.LEFT = join_type_to_string JoinType.FULL ↔
      JoinType.LEFT = JoinType.FULL) :=
  C5_join_tokens.1 JoinType.LEFT JoinType.FULL (by decide) (by decide)

/-- A join list containing a table that is missing from the catalog makes
the alias-building loop fail, whatever the accumulated map is. -/
theorem buildJoinAliases_error (stats : StatisticsManager) :
    ∀ (joins : List JoinClause) (m : List (String × String)) (j : JoinClause),
      j ∈ joins → getTableStatsCI stats j.table.name = none →
      ∃ e, buildJoinAliases stats joins m = Except.error e := by
  intro joins
  induction joins with
  | nil =>
    intro m j hj
    cases hj
  | cons hd tl ih =>
    intro m j hj h2
    cases hhd : getTableStatsCI stats hd.table.name with
    | none =>
      refine ⟨"Unknown table '" ++ hd.table.name ++ "'", ?_⟩
      unfold buildJoinAliases
      rw [hhd]
    | some tshd =>
      rcases List.mem_cons.mp hj with rfl | hmem
      · rw [h2] at hhd
        cases hhd
      · obtain ⟨e, he⟩ := ih
          (mapInsert (toLowerStr (if hd.table.alias_ = "" then tshd.table_name else hd.table.alias_))
            tshd.table_name m) j hmem h2
        refine ⟨e, ?_⟩
        unfold buildJoinAliases
        rw [hhd]
        exact he

/-- C8 amended: a from table missing from the catalog is only a warning and
validation returns success immediately, but a missing join table of any join
type is a fatal Unknown table error and validation returns failure. -/
theorem C8_missing_tables :
    (∀ (stats : StatisticsManager) (q : SelectQuery),
        getTableStatsCI stats q.from_table.name = none →
        semantic_validate stats q =
          (true, "Warning: Table '" ++ q.from_table.name ++
            "' not found in statistics, proceeding anyway")) ∧
    (∀ (stats : StatisticsManager) (q : SelectQuery) (ts : TableStatistics) (j : JoinClause),
        getTableStatsCI stats q.from_table.name = some ts →
        j ∈ q.joins → getTableStatsCI stats j.table.name = none →
        (semantic_validate stats q).1 = false) := by
  constructor
  · intro stats q h
    unfold semantic_validate
    rw [h]
  · intro stats q ts j h1 hj h2
    unfold semantic_validate
    split
    · rename_i heq
      rw [h1] at heq
      cases heq
    · rename_i ts2 heq
      rw [h1] at heq
      injection heq with heq
      subst heq
      obtain ⟨e, he⟩ := buildJoinAliases_error stats q.joins
        (mapInsert (toLowerStr (if q.from_table.alias_ = "" then ts.table_name else q.from_table.alias_))
          ts.table_name []) j hj h2
      dsimp only
      rw [he]

/-- C8 witness: the amended theorem applied to the catalog that only knows
table a shows validation of a query from the unknown table zzz succeeds with
a warning. -/
theorem C8_witness :
    semantic_validate catC8 qC8w =
      (true, "Warning: Table 'zzz' not found in statistics, proceeding anyway") :=
  C8_missing_tables.1 catC8 qC8w rfl

/-- Exact statistics lookups are also case-insensitive lookups. -/
theorem getTableStatsCI_of_exact (m : StatisticsManager) (n : String)
    (ts : TableStatistics) (h : getTableStats m n = some ts) :
    getTableStatsCI m n = some ts := by
  unfold getTableStats at h
  unfold getTableStatsCI
  rw [h]

/-- Filtering does not change the join cardinalities of a plan. -/
theorem joinCards_generateFilterPlan (ch : PlanNode) (conds : List String) :
    joinCards (generateFilterPlan ch conds) = joinCards ch := by
  unfold generateFilterPlan
  split <;> rfl

/-- Aggregation does not change the join cardinalities of a plan. -/
theorem joinCards_generateAggregatePlan (ch : PlanNode) (g a : List String) :
    joinCards (generateAggregatePlan ch g a) = joinCards ch := rfl

/-- Sorting does not change the join cardinalities of a plan. -/
theorem joinCards_generateSortPlan (ch : PlanNode) (ob : List OrderItem) :
    joinCards (generateSortPlan ch ob) = joinCards ch := by
  unfold generateSortPlan
  split <;> rfl

/-- A limit node does not change the join cardinalities of a plan. -/
theorem joinCards_generateLimitPlan (ch : PlanNode) (n : Nat) :
    joinCards (generateLimitPlan ch n) = joinCards ch := by
  unfold generateLimitPlan
  split <;> rfl

/-- A projection node does not change the join cardinalities of a plan. -/
theorem joinCards_projectWrap (q : SelectQuery) (ch : PlanNode) :
    joinCards (projectWrap q ch) = joinCards ch := by
  unfold projectWrap
  split <;> rfl

/-- The whole operator pipeline preserves the join cardinalities of its base. -/
theorem joinCards_buildPipeline (q : SelectQuery) (b : PlanNode) :
    joinCards (buildPipeline q b) = joinCards b := by
  unfold buildPipeline
  rw [joinCards_projectWrap, joinCards_generateLimitPlan, joinCards_generateSortPlan,
    joinCards_generateAggregatePlan, joinCards_generateFilterPlan]

/-- C7 amended: for a query with at least one join whose first two tables
both have exact statistics, generatePlans emits exactly one plan, and its
single join node has estimated cardinality the max of one and the row-count
product divided by ten, with integer division, regardless of whether any
join predicate connects the tables. -/
theorem C7_join_cardinality (stats : StatisticsManager) (q : SelectQuery)
    (j : JoinClause) (js : List JoinClause) (tsa tsb : TableStatistics)
    (hj : q.joins = j :: js)
    (ha : getTableStats stats q.from_table.name = some tsa)
    (hb : getTableStats stats j.table.name = some tsb) :
    ∃ p, generatePlans stats q = [p] ∧
      joinCards p = [Nat.max 1 (tsa.row_count * tsb.row_count / 10)] := by
  have hca := getTableStatsCI_of_exact stats q.from_table.name tsa ha
  have hcb := getTableStatsCI_of_exact stats j.table.name tsb hb
  unfold generatePlans
  rw [hj]
  dsimp only
  unfold generateScanPlans
  rw [ha, hb, hca, hcb]
  dsimp only
  refine ⟨_, rfl, ?_⟩
  rw [joinCards_buildPipeline]
  simp [joinCards]

/-- C7 witness: the amended theorem applied to the concrete ten-row catalog
yields the single plan with join cardinality ten. -/
theorem C7_witness :
    ∃ p, generatePlans catC7 qC7 = [p] ∧
      joinCards p = [Nat.max 1 (tsA7.row_count * tsB7.row_count / 10)] :=
  C7_join_cardinality catC7 qC7
    { type := JoinType.INNER
      table := { name := "b", alias_ := "", pushedFilters := [] }
      on_conds := ["a.x = b.y"] }
    [] tsA7 tsB7 rfl rfl rfl

/-! Lemmas about the rewriter pipeline, supporting the predicate
preservation, constant folding, pushdown and idempotence claims. -/

/-- A condition equal to an ON condition of some join in the list. -/
theorem condInOnConds_spec (joins : List JoinClause) (c : String) :
    condInOnConds joins c = true ↔ ∃ j ∈ joins, c ∈ j.on_conds := by
  unfold condInOnConds
  rw [List.any_eq_true]
  constructor
  · rintro ⟨j, hj, hc⟩
    exact ⟨j, hj, by simpa using hc⟩
  · rintro ⟨j, hj, hc⟩
    exact ⟨j, hj, by simpa using hc⟩

/-- Membership in the ON lists is invariant under permutations of the joins. -/
theorem condInOnConds_perm {l l' : List JoinClause} (h : l.Perm l') (c : String) :
    condInOnConds l c = condInOnConds l' c := by
  rcases hb : condInOnConds l' c with _ | _
  · rcases hbl : condInOnConds l c with _ | _
    · rfl
    · obtain ⟨j, hj, hc⟩ := (condInOnConds_spec l c).mp hbl
      have : condInOnConds l' c = true :=
        (condInOnConds_spec l' c).mpr ⟨j, h.mem_iff.mp hj, hc⟩
      rw [this] at hb
      cases hb
  · obtain ⟨j, hj, hc⟩ := (condInOnConds_spec l' c).mp hb
    exact (condInOnConds_spec l c).mpr ⟨j, h.mem_iff.mpr hj, hc⟩

/-- A conjunct survives the removal filter or sits in some ON list. -/
theorem filter_dichotomy (w : List String) (joins : List JoinClause) (c : String)
    (hc : c ∈ w) :
    c ∈ w.filter (fun c => !condInOnConds joins c) ∨ ∃ j ∈ joins, c ∈ j.on_conds := by
  rcases h : condInOnConds joins c with _ | _
  · left
    exact List.mem_filter.mpr ⟨hc, by rw [h]; rfl⟩
  · right
    exact (condInOnConds_spec joins c).mp h

/-- The removal filter against no joins keeps every conjunct. -/
theorem filter_no_joins (w : List String) :
    w.filter (fun c => !condInOnConds [] c) = w :=
  List.filter_eq_self.mpr fun _ _ => rfl

/-- The sentinel loop leaves the table of every join unchanged. -/
theorem convertJoin_table (m : String) (prev : List String) (w : List String)
    (j : JoinClause) : ((convertJoin m prev w j).1).table = j.table := by
  unfold convertJoin
  split
  · dsimp only
    split
    · rfl
    · rfl
  · rfl

/-- Every join produced by the sentinel loop keeps the table of the
positionally corresponding input join. -/
theorem convertJoinsAux_table (m : String) (w : List String) :
    ∀ (joins : List JoinClause) (prev : List String) (j' : JoinClause),
      j' ∈ (convertJoinsAux m w prev joins).1 → ∃ j0 ∈ joins, j'.table = j0.table := by
  intro joins
  induction joins with
  | nil =>
    intro prev j' h
    cases h
  | cons hd tl ih =>
    intro prev j' h
    unfold convertJoinsAux at h
    rcases List.mem_cons.mp h with rfl | hmem
    · exact ⟨hd, List.mem_cons_self hd tl, convertJoin_table m prev w hd⟩
    · obtain ⟨j0, hj0, ht⟩ := ih (prev ++ [aliasOf hd.table]) j' hmem
      exact ⟨j0, List.mem_cons_of_mem hd hj0, ht⟩

/-- A non-sentinel join passes through the sentinel loop unchanged. -/
theorem convertJoin_nonsentinel (m : String) (prev : List String) (w : List String)
    (j : JoinClause) (h : j.on_conds.head? ≠ some "1=1") :
    convertJoin m prev w j = (j, false) := by
  unfold convertJoin
  rw [if_neg h]

/-- A join list without sentinels passes through the loop unchanged. -/
theorem convertJoinsAux_nonsentinel (m : String) (w : List String) :
    ∀ (joins : List JoinClause) (prev : List String),
      (∀ j ∈ joins, j.on_conds.head? ≠ some "1=1") →
      convertJoinsAux m w prev joins = (joins, false) := by
  intro joins
  induction joins with
  | nil =>
    intro prev _
    rfl
  | cons hd tl ih =>
    intro prev h
    unfold convertJoinsAux
    rw [convertJoin_nonsentinel m prev w hd (h hd (List.mem_cons_self hd tl)),
      ih (prev ++ [aliasOf hd.table]) fun j hj => h j (List.mem_cons_of_mem hd hj)]
    rfl

/-- On a query with explicit non-sentinel joins, comma-join conversion only
removes the WHERE conjuncts that equal some existing ON condition. -/
theorem convertCommaJoins_nonsentinel (q : SelectQuery) (hj : q.joins ≠ [])
    (hs : ∀ j ∈ q.joins, j.on_conds.head? ≠ some "1=1") :
    convertCommaJoins q =
      { q with where_conditions :=
          q.where_conditions.filter fun c => !condInOnConds q.joins c } := by
  unfold convertCommaJoins
  rw [convertJoinsAux_nonsentinel (aliasOf q.from_table) q.where_conditions q.joins [] hs]
  dsimp only
  rw [if_neg]
  intro hcond
  rcases List.isEmpty_iff.mp (by
    have h2 := (Bool.and_eq_true _ _).mp hcond
    exact (Bool.and_eq_true _ _).mp h2.1 |>.2) with h3
  exact hj h3

/-- Folding the alias collection over conditions with no regex match leaves
the accumulator unchanged. -/
theorem aliasFold_no_match (l : List String)
    (h : ∀ c ∈ l, searchAliasPair c.data = none) :
    ∀ s, l.foldl
      (fun s c =>
        match searchAliasPair c.data with
        | some p => setInsert p.2 (setInsert p.1 s)
        | none => s) s = s := by
  induction l with
  | nil =>
    intro s
    rfl
  | cons hd tl ih =>
    intro s
    have hhd := h hd (List.mem_cons_self hd tl)
    show List.foldl _ (match searchAliasPair hd.data with
      | some p => setInsert p.2 (setInsert p.1 s)
      | none => s) tl = s
    rw [hhd]
    exact ih (fun c hc => h c (List.mem_cons_of_mem hd hc)) s

/-- With no dotted equality pattern in any WHERE conjunct, join
reconstruction does nothing. -/
theorem reconstructCommaJoins_no_match (q : SelectQuery)
    (h : ∀ c ∈ q.where_conditions, searchAliasPair c.data = none) :
    reconstructCommaJoins q = q := by
  unfold reconstructCommaJoins
  rw [aliasFold_no_match q.where_conditions h []]
  rfl

/-- With no joins and no dotted equality patterns, comma-join conversion is
the identity. -/
theorem convertCommaJoins_nojoins (q : SelectQuery) (hj : q.joins = [])
    (h : ∀ c ∈ q.where_conditions, searchAliasPair c.data = none) :
    convertCommaJoins q = q := by
  unfold convertCommaJoins
  rw [hj]
  show (if _ && (List.isEmpty _) && _ then _ else _) = q
  rw [show convertJoinsAux (aliasOf q.from_table) q.where_conditions [] [] = ([], false) from rfl]
  dsimp only
  rw [filter_no_joins]
  have hq : { q with joins := ([] : List JoinClause), where_conditions := q.where_conditions } = q := by
    rw [← hj]
  split
  · rw [hq]
    exact reconstructCommaJoins_no_match q h
  · exact hq

/-- Every WHERE conjunct survives join reconstruction in place or moves into
the ON list of a reconstructed join. -/
theorem reconstructCommaJoins_preserves (q : SelectQuery) (c : String)
    (hc : c ∈ q.where_conditions) :
    c ∈ (reconstructCommaJoins q).where_conditions ∨
    ∃ j ∈ (reconstructCommaJoins q).joins, c ∈ j.on_conds := by
  unfold reconstructCommaJoins
  dsimp only
  split
  · left
    exact hc
  · rename_i hne
    rcases filter_dichotomy q.where_conditions _ c hc with h | h
    · left
      exact h
    · right
      exact h

/-- Every WHERE conjunct survives comma-join conversion in place or moves
into some ON list. -/
theorem convertCommaJoins_preserves (q : SelectQuery) (c : String)
    (hc : c ∈ q.where_conditions) :
    c ∈ (convertCommaJoins q).where_conditions ∨
    ∃ j ∈ (convertCommaJoins q).joins, c ∈ j.on_conds := by
  unfold convertCommaJoins
  dsimp only
  split
  · rename_i hcnd
    have hpin : (convertJoinsAux (aliasOf q.from_table) q.where_conditions [] q.joins).1 = [] := by
      have h2 := (Bool.and_eq_true _ _).mp hcnd
      exact List.isEmpty_iff.mp ((Bool.and_eq_true _ _).mp h2.1).2
    rw [hpin, filter_no_joins]
    exact reconstructCommaJoins_preserves _ c hc
  · exact filter_dichotomy q.where_conditions _ c hc

/-- The comma-join phase leaves the from table untouched. -/
theorem convertCommaJoins_from_table (q : SelectQuery) :
    (convertCommaJoins q).from_table = q.from_table := by
  obtain ⟨js, ws, h⟩ := convertCommaJoins_shape q
  rw [h]

/-- The comma-join phase leaves the select items untouched. -/
theorem convertCommaJoins_select_items (q : SelectQuery) :
    (convertCommaJoins q).select_items = q.select_items := by
  obtain ⟨js, ws, h⟩ := convertCommaJoins_shape q
  rw [h]

/-- The subquery phase appends its synthesized joins after the existing ones. -/
theorem convertSubqueriesToJoins_joins (q : SelectQuery) :
    ∃ extra, (convertSubqueriesToJoins q).joins = q.joins ++ extra ∧
      ∀ j ∈ extra, j.table.pushedFilters = [] := by
  unfold convertSubqueriesToJoins
  dsimp only
  split
  · refine ⟨_, rfl, ?_⟩
    intro j hj
    obtain ⟨p, hp, hpj⟩ := List.mem_filterMap.mp hj
    obtain ⟨it, hit, hitp⟩ := List.mem_map.mp hp
    revert hpj
    unfold convertItem at hitp
    split at hitp
    · split at hitp
      · rw [← hitp]
        intro hpj
        injection hpj with hpj
        rw [← hpj]
        rfl
      · split at hitp
        · rw [← hitp]
          intro hpj
          injection hpj with hpj
          rw [← hpj]
          rfl
        · split at hitp
          · rw [← hitp]
            intro hpj
            injection hpj with hpj
            rw [← hpj]
            rfl
          · split at hitp
            · rw [← hitp]
              intro hpj
              injection hpj with hpj
              rw [← hpj]
            · rw [← hitp]
              intro hpj
              cases hpj
    · rw [← hitp]
      intro hpj
      cases hpj
  · exact ⟨[], (List.append_nil q.joins).symm, fun j hj => absurd hj (List.not_mem_nil j)⟩

/-- The subquery phase leaves WHERE and the from table untouched. -/
theorem convertSubqueriesToJoins_frame (q : SelectQuery) :
    (convertSubqueriesToJoins q).where_conditions = q.where_conditions ∧
    (convertSubqueriesToJoins q).from_table = q.from_table := by
  obtain ⟨si, js, h⟩ := convertSubqueriesToJoins_shape q
  rw [h]
  exact ⟨rfl, rfl⟩

/-- A select item with no subquery markers is not converted. -/
theorem convertItem_noop (it : SelectItem)
    (h : (strContains it.expr "(SELECT" && strContains it.expr "FROM") = false) :
    convertItem it = (it, none) := by
  unfold convertItem
  rw [if_neg]
  intro hcond
  rw [h] at hcond
  cases hcond

/-- With no subquery markers in any select item, the subquery phase is the
identity. -/
theorem convertSubqueriesToJoins_noop (q : SelectQuery)
    (h : ∀ it ∈ q.select_items,
      (strContains it.expr "(SELECT" && strContains it.expr "FROM") = false) :
    convertSubqueriesToJoins q = q := by
  unfold convertSubqueriesToJoins
  dsimp only
  rw [if_neg]
  intro hcond
  rw [List.any_eq_true] at hcond
  obtain ⟨p, hp, hps⟩ := hcond
  obtain ⟨it, hit, hitp⟩ := List.mem_map.mp hp
  rw [convertItem_noop it (h it hit)] at hitp
  rw [← hitp] at hps
  cases hps

/-- Pushdown on a join-free query moves all WHERE conjuncts into the pushed
filters of the from table. -/
theorem pushdownPredicates_nojoins (q : SelectQuery) (hj : q.joins = []) :
    pushdownPredicates q =
      { q with from_table := { q.from_table with pushedFilters := q.where_conditions },
               where_conditions := [] } := by
  unfold pushdownPredicates
  rw [if_pos (List.isEmpty_iff.mpr hj)]

/-- Pushdown does nothing when the query has joins. -/
theorem pushdownPredicates_joins (q : SelectQuery) (hj : q.joins ≠ []) :
    pushdownPredicates q = q := by
  unfold pushdownPredicates
  rw [if_neg]
  intro h
  exact hj (List.isEmpty_iff.mp h)

/-- The joins are not modified by predicate pushdown. -/
theorem pushdownPredicates_joins_eq (q : SelectQuery) :
    (pushdownPredicates q).joins = q.joins := by
  unfold pushdownPredicates
  split
  · rfl
  · rfl

/-- Queries with at most one join are not reordered. -/
theorem reorderJoins_short (q : SelectQuery) (h : ¬ q.joins.length > 1) :
    reorderJoins q = q := by
  unfold reorderJoins
  rw [if_neg h]

/-- The reorder phase leaves everything but the joins untouched. -/
theorem reorderJoins_frame (q : SelectQuery) :
    (reorderJoins q).where_conditions = q.where_conditions ∧
    (reorderJoins q).from_table = q.from_table ∧
    (reorderJoins q).select_items = q.select_items := by
  obtain ⟨js, h⟩ := reorderJoins_shape q
  rw [h]
  exact ⟨rfl, rfl, rfl⟩

/-- Reordering twice is the same as reordering once. -/
theorem reorderJoins_idem (q : SelectQuery) :
    reorderJoins (reorderJoins q) = reorderJoins q := by
  by_cases h : q.joins.length > 1
  · have h1 : reorderJoins q = { q with joins := q.joins.insertionSort joinRel } := by
      unfold reorderJoins
      rw [if_pos h]
    have hlen : (q.joins.insertionSort joinRel).length = q.joins.length :=
      List.length_insertionSort joinRel q.joins
    rw [h1]
    unfold reorderJoins
    rw [if_pos (by rw [hlen]; exact h)]
    dsimp only
    rw [List.Sorted.insertionSort_eq (List.sorted_insertionSort joinRel q.joins)]
  · rw [reorderJoins_short q h, reorderJoins_short q h]

/-- C1 amended: rewriting drops no WHERE conjunct, but conjuncts can move
into join ON lists rather than staying in the pushed-filter or WHERE union;
and afterwards no conjunct can sit in both the pushed filters and the WHERE
list, because one of the two is always empty. -/
theorem C1_predicate_preservation (q : SelectQuery)
    (hp : q.from_table.pushedFilters = []) :
    (∀ c ∈ q.where_conditions,
      c ∈ (rewrite q).where_conditions ∨
      c ∈ (rewrite q).from_table.pushedFilters ∨
      ∃ j ∈ (rewrite q).joins, c ∈ j.on_conds) ∧
    ((rewrite q).where_conditions = [] ∨ (rewrite q).from_table.pushedFilters = []) := by
  have hrw : rewrite q =
      reorderJoins (pushdownPredicates (convertSubqueriesToJoins (convertCommaJoins q))) := rfl
  obtain ⟨extra, hext, -⟩ := convertSubqueriesToJoins_joins (convertCommaJoins q)
  have h21 := (convertSubqueriesToJoins_frame (convertCommaJoins q)).1
  have h22 := (convertSubqueriesToJoins_frame (convertCommaJoins q)).2
  have h11 := convertCommaJoins_from_table q
  by_cases hjoins : (convertSubqueriesToJoins (convertCommaJoins q)).joins = []
  · have hpd := pushdownPredicates_nojoins _ hjoins
    have hq3join :
        (pushdownPredicates (convertSubqueriesToJoins (convertCommaJoins q))).joins = [] := by
      rw [hpd]
      exact hjoins
    have hshort := reorderJoins_short
      (pushdownPredicates (convertSubqueriesToJoins (convertCommaJoins q)))
      (by rw [hq3join]; simp)
    constructor
    · intro c hc
      rcases convertCommaJoins_preserves q c hc with h1 | ⟨j, hj, hcj⟩
      · right
        left
        rw [hrw, hshort, hpd]
        show c ∈ (convertSubqueriesToJoins (convertCommaJoins q)).where_conditions
        rw [h21]
        exact h1
      · exfalso
        have hnil : (convertCommaJoins q).joins = [] := by
          rw [hjoins] at hext
          exact (List.append_eq_nil.mp hext.symm).1
        rw [hnil] at hj
        exact List.not_mem_nil j hj
    · left
      rw [hrw, hshort, hpd]
  · have hpd := pushdownPredicates_joins _ hjoins
    have hperm := reorderJoins_perm
      (pushdownPredicates (convertSubqueriesToJoins (convertCommaJoins q)))
    constructor
    · intro c hc
      rcases convertCommaJoins_preserves q c hc with h1 | ⟨j, hj, hcj⟩
      · left
        rw [hrw, (reorderJoins_frame _).1, hpd, h21]
        exact h1
      · right
        right
        refine ⟨j, ?_, hcj⟩
        rw [hrw]
        apply hperm.mem_iff.mpr
        rw [hpd, hext]
        exact List.mem_append_left extra hj
    · right
      rw [hrw, (reorderJoins_frame _).2.1, hpd, h22, h11]
      exact hp

/-- C1 witness: the amended predicate preservation applied to the join-free
query qC1w with an initially empty pushed-filter list. -/
theorem C1_witness :
    (∀ c ∈ qC1w.where_conditions,
      c ∈ (rewrite qC1w).where_conditions ∨
      c ∈ (rewrite qC1w).from_table.pushedFilters ∨
      ∃ j ∈ (rewrite qC1w).joins, c ∈ j.on_conds) ∧
    ((rewrite qC1w).where_conditions = [] ∨ (rewrite qC1w).from_table.pushedFilters = []) :=
  C1_predicate_preservation qC1w rfl

/-- C3 amended: the rewriter folds no constants at all; on a join-free query
with no subquery markers and no dotted equality conjuncts, every WHERE
conjunct, the trivial 1=1 included, is moved verbatim into the pushed
filters of the from table instead of being dropped. -/
theorem C3_no_constant_folding (q : SelectQuery)
    (hj : q.joins = [])
    (hs : ∀ it ∈ q.select_items,
      (strContains it.expr "(SELECT" && strContains it.expr "FROM") = false)
    (hw : ∀ c ∈ q.where_conditions, searchAliasPair c.data = none) :
    (rewrite q).from_table.pushedFilters = q.where_conditions ∧
    (rewrite q).where_conditions = [] ∧
    (∀ c ∈ q.where_conditions, c ∈ (rewrite q).from_table.pushedFilters) := by
  have hrw : rewrite q =
      reorderJoins (pushdownPredicates (convertSubqueriesToJoins (convertCommaJoins q))) := rfl
  rw [hrw, convertCommaJoins_nojoins q hj hw, convertSubqueriesToJoins_noop q hs,
    pushdownPredicates_nojoins q hj,
    reorderJoins_short _ (by show ¬ q.joins.length > 1; rw [hj]; simp)]
  exact ⟨rfl, rfl, fun c hc => hc⟩

/-- C3 witness: the amended theorem applied to qC3 keeps the 1=1 conjunct in
the pushed filters. -/
theorem C3_witness :
    (rewrite qC3).from_table.pushedFilters = qC3.where_conditions ∧
    (rewrite qC3).where_conditions = [] ∧
    (∀ c ∈ qC3.where_conditions, c ∈ (rewrite qC3).from_table.pushedFilters) :=
  C3_no_constant_folding qC3 rfl (by decide) (by decide)

/-- Joins reconstructed from WHERE patterns carry no pushed filters; all
other joins come straight from the input query. -/
theorem reconstructCommaJoins_joins (q : SelectQuery) :
    ∀ j ∈ (reconstructCommaJoins q).joins,
      j.table.pushedFilters = [] ∨ j ∈ q.joins := by
  unfold reconstructCommaJoins
  dsimp only
  split
  · intro j hj
    right
    exact hj
  · intro j hj
    left
    obtain ⟨a, ha, haj⟩ := List.mem_filterMap.mp hj
    split at haj
    · cases haj
    · injection haj with haj
      rw [← haj]

/-- Every join present after comma-join conversion either has no pushed
filters or keeps the table of an input join. -/
theorem convertCommaJoins_joins_prov (q : SelectQuery) :
    ∀ j ∈ (convertCommaJoins q).joins,
      j.table.pushedFilters = [] ∨ ∃ j0 ∈ q.joins, j.table = j0.table := by
  unfold convertCommaJoins
  dsimp only
  split
  · intro j hj
    rcases reconstructCommaJoins_joins _ j hj with h | h
    · left
      exact h
    · obtain ⟨j0, hj0, ht⟩ :=
        convertJoinsAux_table (aliasOf q.from_table) q.where_conditions q.joins [] j h
      right
      exact ⟨j0, hj0, ht⟩
  · intro j hj
    obtain ⟨j0, hj0, ht⟩ :=
      convertJoinsAux_table (aliasOf q.from_table) q.where_conditions q.joins [] j hj
    right
    exact ⟨j0, hj0, ht⟩

/-- C4 amended: predicate pushdown happens only for join-free queries.  When
the rewritten query still has joins, the pushed filters of the from table
are left exactly as they were, and no join table ever receives a pushed
filter it did not already have in the input query. -/
theorem C4_no_pushdown_with_joins (q : SelectQuery) :
    ((rewrite q).joins ≠ [] →
      (rewrite q).from_table.pushedFilters = q.from_table.pushedFilters) ∧
    (∀ j ∈ (rewrite q).joins,
      j.table.pushedFilters = [] ∨ ∃ j0 ∈ q.joins, j.table = j0.table) := by
  have hrw : rewrite q =
      reorderJoins (pushdownPredicates (convertSubqueriesToJoins (convertCommaJoins q))) := rfl
  obtain ⟨extra, hext, hextp⟩ := convertSubqueriesToJoins_joins (convertCommaJoins q)
  constructor
  · intro hne
    have hq2 : (convertSubqueriesToJoins (convertCommaJoins q)).joins ≠ [] := by
      intro h0
      apply hne
      have hj3 :
          (pushdownPredicates (convertSubqueriesToJoins (convertCommaJoins q))).joins = [] := by
        rw [pushdownPredicates_joins_eq]
        exact h0
      have hperm := reorderJoins_perm
        (pushdownPredicates (convertSubqueriesToJoins (convertCommaJoins q)))
      rw [hj3] at hperm
      rw [hrw]
      exact hperm.eq_nil
    rw [hrw, (reorderJoins_frame _).2.1, pushdownPredicates_joins _ hq2,
      (convertSubqueriesToJoins_frame _).2, convertCommaJoins_from_table]
  · intro j hj
    have hperm := reorderJoins_perm
      (pushdownPredicates (convertSubqueriesToJoins (convertCommaJoins q)))
    have hj3 : j ∈ (pushdownPredicates (convertSubqueriesToJoins (convertCommaJoins q))).joins :=
      hperm.mem_iff.mp (by rw [← hrw]; exact hj)
    rw [pushdownPredicates_joins_eq, hext] at hj3
    rcases List.mem_append.mp hj3 with h | h
    · exact convertCommaJoins_joins_prov q j h
    · left
      exact hextp j h

/-- C4 witness: the amended theorem applied to qC4, whose rewritten form
keeps its join, shows its pushed filters are untouched. -/
theorem C4_witness :
    (rewrite qC4).from_table.pushedFilters = qC4.from_table.pushedFilters :=
  (C4_no_pushdown_with_joins qC4).1 (by decide)

/-- On a query with explicit non-sentinel joins and no subquery markers, the
rewrite is reordering after ON-duplicate removal from the WHERE list. -/
theorem rewrite_of_explicit (q : SelectQuery)
    (hj : q.joins ≠ [])
    (hsent : ∀ j ∈ q.joins, j.on_conds.head? ≠ some "1=1")
    (hs : ∀ it ∈ q.select_items,
      (strContains it.expr "(SELECT" && strContains it.expr "FROM") = false) :
    rewrite q =
      reorderJoins
        { q with where_conditions :=
            q.where_conditions.filter fun c => !condInOnConds q.joins c } := by
  unfold rewrite pushdownProjections
  rw [convertCommaJoins_nonsentinel q hj hsent,
    convertSubqueriesToJoins_noop _ (by exact hs),
    pushdownPredicates_joins _ (by exact hj)]

/-- C6 amended: the rewrite is not idempotent in general, but it is
idempotent on queries that already carry explicit joins: with nonempty
joins, none of them marked by the 1=1 sentinel, and no subquery marker in
the select list, applying rewrite twice equals applying it once. -/
theorem C6_rewrite_idempotent_on_explicit_joins (q : SelectQuery)
    (hj : q.joins ≠ [])
    (hsent : ∀ j ∈ q.joins, j.on_conds.head? ≠ some "1=1")
    (hs : ∀ it ∈ q.select_items,
      (strContains it.expr "(SELECT" && strContains it.expr "FROM") = false) :
    rewrite (rewrite q) = rewrite q := by
  have hrw1 := rewrite_of_explicit q hj hsent hs
  have hrj : ((rewrite q).joins).Perm q.joins := by
    rw [hrw1]
    exact reorderJoins_perm _
  have hrjne : (rewrite q).joins ≠ [] := by
    intro h0
    rw [h0] at hrj
    exact hj hrj.symm.eq_nil
  have hrsent : ∀ j ∈ (rewrite q).joins, j.on_conds.head? ≠ some "1=1" :=
    fun j hjm => hsent j (hrj.mem_iff.mp hjm)
  have hrs : (rewrite q).select_items = q.select_items := by
    rw [hrw1]
    exact (reorderJoins_frame _).2.2
  have hrwh : (rewrite q).where_conditions =
      q.where_conditions.filter fun c => !condInOnConds q.joins c := by
    rw [hrw1]
    exact (reorderJoins_frame _).1
  have hrw2 := rewrite_of_explicit (rewrite q) hrjne hrsent (by rw [hrs]; exact hs)
  have hfix : ((rewrite q).where_conditions.filter
      fun c => !condInOnConds (rewrite q).joins c) = (rewrite q).where_conditions := by
    apply List.filter_eq_self.mpr
    intro c hc
    rw [hrwh] at hc
    have hcin := (List.mem_filter.mp hc).2
    rw [condInOnConds_perm hrj c]
    exact hcin
  rw [hrw2, hfix]
  have heta : { rewrite q with where_conditions := (rewrite q).where_conditions } = rewrite q := rfl
  rw [heta, hrw1, reorderJoins_idem]

/-- C6 witness: the amended idempotence applied to the two-join query qC6w. -/
theorem C6_witness :
    rewrite (rewrite qC6w) = rewrite qC6w :=
  C6_rewrite_idempotent_on_explicit_joins qC6w (by decide) (by decide) (by decide)

end SqlOpt
